import Mathlib

/-!
# Verification development for the promise-dapp backend storage service

Shallow embedding of `scripts/backend/user-storage.js`.

Modelling conventions:
* a JavaScript object keyed by strings becomes an association list
  `List (String × _)` preserving insertion order (JS string-keyed objects
  enumerate in insertion order; assignment replaces the entry in place);
* a JSON array collection becomes a Lean `List`;
* `Date.now()` and the random id generators (`promise_..._...`,
  `delreq_..._...`) are externalized as explicit `now` / `genId` arguments;
* JS numbers are modelled as `Int` for counters and reputation and `Nat`
  for timestamps; the two ratio statistics are exact `ℚ` (the float
  rounding of `toFixed(9)` is not modelled — no claim depends on it);
* optional / possibly-absent JSON keys become `Option` fields, `none`
  meaning the key is absent (`JSON.stringify` drops `undefined` keys);
* a fallible operation returns `Except String α × StorageState`: the
  source persists each collection write with its own `fs.writeFile` as it
  happens, so a thrown error leaves behind every write already performed;
  the returned state is the state as persisted at the moment of return.
-/

/-- `address.toLowerCase()`: lower-cases every character (addresses here
are ASCII hex strings, for which JS `toLowerCase` does exactly this). -/
def jsLower (s : String) : String := ⟨s.data.map Char.toLower⟩

/-- JS object member read `m[k]`: the entry for key `k`, if present. -/
def objGet {α : Type} (m : List (String × α)) (k : String) : Option α :=
  (m.find? (fun p => p.1 == k)).map Prod.snd

/-- JS object member write `m[k] = v`: replaces the entry for `k` in place
(preserving key order), appending a fresh entry when `k` is absent. -/
def objSet {α : Type} : List (String × α) → String → α → List (String × α)
  | [], k, v => [(k, v)]
  | p :: rest, k, v => if p.1 == k then (k, v) :: rest else p :: objSet rest k v

/-- A `users.json` record (`createUser`, lines 90–101). -/
structure User where
  address : String
  reputation : Int
  completedPromises : Int
  failedPromises : Int
  totalPromises : Int
  streak : Int
  level : Int
  joinedAt : Nat
  lastActive : Nat
deriving DecidableEq

/-- A `promises.json` record. `status` and the other optional fields are
whatever keys the caller-supplied `promiseData` carried (`createPromise`
sets no `status` of its own). -/
structure PromiseRec where
  id : String
  address : String
  message : String
  status : Option String
  deadline : Option Nat
  proof : Option String
  category : Option String
  difficulty : Option String
  createdAt : Nat
  updatedAt : Nat
  adminAdjustedProgress : Option Int
deriving DecidableEq

/-- The caller-supplied `promiseData` body of `createPromise`; `none`
means the key is absent from the JSON body. -/
structure PromiseData where
  id : Option String := none
  address : String
  message : String
  status : Option String := none
  deadline : Option Nat := none
  proof : Option String := none
  category : Option String := none
  difficulty : Option String := none
  createdAt : Option Nat := none
  updatedAt : Option Nat := none
  adminAdjustedProgress : Option Int := none
deriving DecidableEq

/-- The caller-supplied `updates` body of `updatePromise` (the API layer
sends `{status, proof}` or `{adminAdjustedProgress}`). -/
structure PromiseUpdates where
  status : Option String := none
  proof : Option String := none
  adminAdjustedProgress : Option Int := none
deriving DecidableEq

/-- A `delete-requests.json` record (`addDeleteRequest`, lines 387–393;
`processedBy` / `processedAt` are absent until resolution). -/
structure DeleteRequest where
  id : String
  promiseId : String
  requesterAddress : String
  status : String
  requestedAt : Nat
  processedBy : Option String
  processedAt : Option Nat
deriving DecidableEq

/-- A `sessions.json` record (`recordSession`). -/
structure Session where
  ip : String
  firstVisit : Nat
  lastActive : Nat
deriving DecidableEq

/-- The materialized `global-stats.json` view (`updateGlobalStats`). -/
structure GlobalStats where
  totalUsers : Nat
  totalPromises : Nat
  completionRate : ℚ
  averageReputation : ℚ
  topPerformer : Option String
  lastUpdated : Nat
deriving DecidableEq

/-- The five persisted collections of the Record Store. -/
structure StorageState where
  users : List (String × User)
  promises : List PromiseRec
  deleteRequests : List DeleteRequest
  sessions : List (String × Session)
  stats : GlobalStats
deriving DecidableEq

/-- The `updates` objects passed to `updateUser`; only these six fields
ever occur at the source's call sites. -/
structure UserUpdates where
  reputation : Option Int := none
  completedPromises : Option Int := none
  failedPromises : Option Int := none
  totalPromises : Option Int := none
  streak : Option Int := none
  level : Option Int := none
deriving DecidableEq

/-- The merge `{...user, ...updates, lastActive: Date.now()}` performed by
`updateUser` (lines 133–137). -/
def applyUserUpdates (u : User) (upd : UserUpdates) (now : Nat) : User :=
  { u with
    reputation := upd.reputation.getD u.reputation
    completedPromises := upd.completedPromises.getD u.completedPromises
    failedPromises := upd.failedPromises.getD u.failedPromises
    totalPromises := upd.totalPromises.getD u.totalPromises
    streak := upd.streak.getD u.streak
    level := upd.level.getD u.level
    lastActive := now }

/-- `top?.reputation || 0` in the `topPerformer` reduce: `0` when there is
no accumulator yet (for `some u` with `u.reputation = 0` the JS `|| 0`
also yields `0`, which equals `u.reputation`). -/
def accRep (top : Option User) : Int :=
  match top with
  | none => 0
  | some u => u.reputation

/-- The `topPerformer` reduce of `updateGlobalStats` (lines 342–345):
`user.reputation > (top?.reputation || 0) ? user : top`, starting from
`null`. -/
def topReduce (userArray : List User) : Option User :=
  userArray.foldl (fun top u => if accRep top < u.reputation then some u else top) none

/-- `updateGlobalStats` (lines 326–364) as a pure function of the scanned
collections and the clock. -/
def computeGlobalStats (users : List (String × User)) (promises : List PromiseRec)
    (sessions : List (String × Session)) (now : Nat) : GlobalStats :=
  let userArray := users.map Prod.snd
  let totalUsers := sessions.length
  let totalPromises := promises.length
  let completedPromises := (promises.filter (fun p => p.status == some "completed")).length
  let completionRate : ℚ :=
    if 0 < totalPromises then ((completedPromises : ℚ) / (totalPromises : ℚ)) * 100 else 0
  let totalReputation : Int := userArray.foldl (fun acc u => acc + u.reputation) 0
  let averageReputation : ℚ :=
    if 0 < totalUsers then (totalReputation : ℚ) / (totalUsers : ℚ) else 0
  { totalUsers := totalUsers
    totalPromises := totalPromises
    completionRate := completionRate
    averageReputation := averageReputation
    topPerformer :=
      match topReduce userArray with
      | none => none
      | some u => if u.address = "" then none else some u.address
    lastUpdated := now }

/-- `updateGlobalStats` as a state transformer: rewrites the materialized
stats view from a full scan. -/
def updateGlobalStats (s : StorageState) (now : Nat) : StorageState :=
  { s with stats := computeGlobalStats s.users s.promises s.sessions now }

/-- `getUser` (lines 115–123): lookup under the lowercase-normalized key. -/
def getUser (s : StorageState) (address : String) : Option User :=
  objGet s.users (jsLower address)

/-- The zero-valued `newUser` record of `createUser` (lines 90–101). -/
def freshUser (address : String) (now : Nat) : User :=
  { address := address, reputation := 0, completedPromises := 0, failedPromises := 0,
    totalPromises := 0, streak := 0, level := 1, joinedAt := now, lastActive := now }

/-- `createUser` (lines 86–113). The optional `userData` parameter is
omitted: every call site in the source passes none. Also refreshes the
global stats (line 105). -/
def createUser (s : StorageState) (address : String) (now : Nat) : User × StorageState :=
  let newUser : User := freshUser address now
  let s₁ := { s with users := objSet s.users (jsLower address) newUser }
  (newUser, updateGlobalStats s₁ now)

/-- `updateUser` (lines 125–146): fails when the user is absent, otherwise
merges the updates and stamps `lastActive`. -/
def updateUser (s : StorageState) (address : String) (upd : UserUpdates) (now : Nat) :
    Except String User × StorageState :=
  match objGet s.users (jsLower address) with
  | none => (Except.error ("User " ++ address ++ " not found"), s)
  | some u =>
    let u' := applyUserUpdates u upd now
    (Except.ok u', { s with users := objSet s.users (jsLower address) u' })

/-- The `updates` object built by `updateUserReputation` (lines 301–315):
branch on the status string, then always recompute reputation (floored at
0) and level. -/
def reputationUpdates (user : User) (status : String) : UserUpdates :=
  let base : UserUpdates :=
    if status = "completed" then
      { completedPromises := some (user.completedPromises + 1), streak := some (user.streak + 1) }
    else if status = "failed" then
      { failedPromises := some (user.failedPromises + 1), streak := some 0 }
    else {}
  let reputationChange : Int :=
    if status = "completed" then 10 else if status = "failed" then -5 else 0
  let newRep := max 0 (user.reputation + reputationChange)
  { base with reputation := some newRep, level := some (Int.fdiv newRep 50 + 1) }

/-- `updateUserReputation` (lines 296–323): no-op when the user is absent;
otherwise applies `reputationUpdates` through `updateUser`.  The source
catches every error internally and never rethrows, and `updateUser`
cannot fail here since the user was just found. -/
def updateUserReputation (s : StorageState) (address status : String) (now : Nat) :
    StorageState :=
  match getUser s address with
  | none => s
  | some user => (updateUser s address (reputationUpdates user status) now).2

/-- The record built by `createPromise` (lines 177–183): generated fields
first, then the spread `...promiseData`, so every key present in the
caller's body overrides the generated value. -/
def mkNewPromise (pd : PromiseData) (genId : String) (now : Nat) : PromiseRec :=
  { id := pd.id.getD genId
    address := pd.address
    message := pd.message
    status := pd.status
    deadline := pd.deadline
    proof := pd.proof
    category := pd.category
    difficulty := pd.difficulty
    createdAt := pd.createdAt.getD now
    updatedAt := pd.updatedAt.getD now
    adminAdjustedProgress := pd.adminAdjustedProgress }

/-- `createPromise` (lines 168–200): lazily creates the owner, appends the
new promise, bumps the owner's `totalPromises`, refreshes stats. -/
def createPromise (s : StorageState) (pd : PromiseData) (genId : String) (now : Nat) :
    Except String PromiseRec × StorageState :=
  let us : User × StorageState :=
    match getUser s pd.address with
    | some u => (u, s)
    | none => createUser s pd.address now
  let user := us.1
  let newPromise := mkNewPromise pd genId now
  let s₂ := { us.2 with promises := us.2.promises ++ [newPromise] }
  let r := updateUser s₂ pd.address { totalPromises := some (user.totalPromises + 1) } now
  match r.1 with
  | Except.error e => (Except.error e, r.2)
  | Except.ok _ => (Except.ok newPromise, updateGlobalStats r.2 now)

/-- The merge `{...oldPromise, ...updates, updatedAt: Date.now()}` of
`updatePromise` (lines 212–216). -/
def applyPromiseUpdates (p : PromiseRec) (upd : PromiseUpdates) (now : Nat) : PromiseRec :=
  { p with
    status := match upd.status with | some st => some st | none => p.status
    proof := match upd.proof with | some pf => some pf | none => p.proof
    adminAdjustedProgress :=
      match upd.adminAdjustedProgress with | some x => some x | none => p.adminAdjustedProgress
    updatedAt := now }

/-- `findIndex` plus in-place assignment `promises[promiseIndex] = ...`:
returns the old record, the new record and the updated list for the first
id match, or `none` when the id is absent. -/
def updatePromiseList (l : List PromiseRec) (pid : String) (upd : PromiseUpdates) (now : Nat) :
    Option (PromiseRec × PromiseRec × List PromiseRec) :=
  match l with
  | [] => none
  | p :: rest =>
    if p.id == pid then some (p, applyPromiseUpdates p upd now, applyPromiseUpdates p upd now :: rest)
    else (updatePromiseList rest pid upd now).map (fun t => (t.1, t.2.1, p :: t.2.2))

/-- The guard `updates.status && updates.status !== oldPromise.status`
(line 220): a present, truthy (non-empty) status different from the old
one triggers the reputation update. -/
def statusTriggers (upd : PromiseUpdates) (oldStatus : Option String) : Bool :=
  match upd.status with
  | none => false
  | some st => st != "" && some st != oldStatus

/-- `updatePromise` (lines 202–232). -/
def updatePromise (s : StorageState) (pid : String) (upd : PromiseUpdates) (now : Nat) :
    Except String PromiseRec × StorageState :=
  match updatePromiseList s.promises pid upd now with
  | none => (Except.error ("Promise " ++ pid ++ " not found"), s)
  | some (oldPromise, newPromise, promises₁) =>
    let s₁ := { s with promises := promises₁ }
    let s₂ :=
      if statusTriggers upd oldPromise.status then
        updateUserReputation s₁ oldPromise.address (upd.status.getD "") now
      else s₁
    (Except.ok newPromise, updateGlobalStats s₂ now)

/-- `deletePromise` (lines 234–261): removes every record with the id
(`filter`), decrements the owner's `totalPromises` floored at 0 when the
owner exists, refreshes stats. -/
def deletePromise (s : StorageState) (pid : String) (now : Nat) :
    Except String Unit × StorageState :=
  match s.promises.find? (fun p => p.id == pid) with
  | none => (Except.error ("Promise " ++ pid ++ " not found"), s)
  | some promiseToDelete =>
    let s₁ := { s with promises := s.promises.filter (fun p => p.id != pid) }
    let s₂ :=
      match getUser s₁ promiseToDelete.address with
      | none => s₁
      | some user =>
        (updateUser s₁ promiseToDelete.address
          { totalPromises := some (max 0 (user.totalPromises - 1)) } now).2
    (Except.ok (), updateGlobalStats s₂ now)

/-- `addDeleteRequest` (lines 377–402): returns the existing pending
request for the promise unchanged, or appends a fresh pending one. -/
def addDeleteRequest (s : StorageState) (pid requesterAddress genId : String) (now : Nat) :
    DeleteRequest × StorageState :=
  match s.deleteRequests.find? (fun r => r.promiseId == pid && r.status == "pending") with
  | some existingRequest => (existingRequest, s)
  | none =>
    let newRequest : DeleteRequest :=
      { id := genId, promiseId := pid, requesterAddress := requesterAddress,
        status := "pending", requestedAt := now, processedBy := none, processedAt := none }
    (newRequest, { s with deleteRequests := s.deleteRequests ++ [newRequest] })

/-- The field assignments of lines 424–426. -/
def resolveRequest (r : DeleteRequest) (status adminAddress : String) (now : Nat) :
    DeleteRequest :=
  { r with status := status, processedBy := some adminAddress, processedAt := some now }

/-- `findIndex` plus in-place mutation of `requests[requestIndex]`. -/
def resolveReqList (l : List DeleteRequest) (rid status adminAddress : String) (now : Nat) :
    Option (DeleteRequest × List DeleteRequest) :=
  match l with
  | [] => none
  | r :: rest =>
    if r.id == rid then
      some (resolveRequest r status adminAddress now,
        resolveRequest r status adminAddress now :: rest)
    else (resolveReqList rest rid status adminAddress now).map (fun t => (t.1, r :: t.2))

/-- `updateDeleteRequestStatus` (lines 415–439): persists the resolved
request first, then — only for `approved` — cascades into
`deletePromise`, whose failure propagates after the request write. -/
def updateDeleteRequestStatus (s : StorageState) (rid status adminAddress : String)
    (now : Nat) : Except String DeleteRequest × StorageState :=
  match resolveReqList s.deleteRequests rid status adminAddress now with
  | none => (Except.error ("Delete request " ++ rid ++ " not found."), s)
  | some (req, requests₁) =>
    let s₁ := { s with deleteRequests := requests₁ }
    if status = "approved" then
      match deletePromise s₁ req.promiseId now with
      | (Except.error e, s₂) => (Except.error e, s₂)
      | (Except.ok _, s₂) => (Except.ok req, s₂)
    else (Except.ok req, s₁)

/-- The freshly initialized stats file (lines 23–29). -/
def initialStats : GlobalStats :=
  { totalUsers := 0, totalPromises := 0, completionRate := 0, averageReputation := 0,
    topPerformer := none, lastUpdated := 0 }

/-- The store right after `initializeStorage` on an empty data directory. -/
def initState : StorageState :=
  { users := [], promises := [], deleteRequests := [], sessions := [], stats := initialStats }

/-- The core mutating operations reachable through the two HTTP servers. -/
inductive Op where
  | create (pd : PromiseData) (genId : String) (now : Nat)
  | setStatus (pid : String) (upd : PromiseUpdates) (now : Nat)
  | requestDel (pid requesterAddress genId : String) (now : Nat)
  | resolveDel (rid status adminAddress : String) (now : Nat)

/-- One core operation applied to the store (the persisted state after the
call, whether or not it reported an error). -/
def stepOp (s : StorageState) : Op → StorageState
  | Op.create pd genId now => (createPromise s pd genId now).2
  | Op.setStatus pid upd now => (updatePromise s pid upd now).2
  | Op.requestDel pid ra genId now => (addDeleteRequest s pid ra genId now).2
  | Op.resolveDel rid st adm now => (updateDeleteRequestStatus s rid st adm now).2

/-- A whole history of core operations run from the initial store. -/
def runOps (ops : List Op) : StorageState := ops.foldl stepOp initState

/-- The per-user spec invariant: reputation is non-negative and level is
derived from it. -/
def UserOK (u : User) : Prop :=
  0 ≤ u.reputation ∧ u.level = Int.fdiv u.reputation 50 + 1

/-- The number of pending delete requests for one promise id. -/
def countPending (l : List DeleteRequest) (pid : String) : Nat :=
  (l.filter (fun r => r.promiseId == pid && r.status == "pending")).length

/-- Spec-side description of the `topPerformer` scan: the first-encountered
user whose reputation is maximal, provided that maximum is positive
(earlier user wins ties). -/
def firstMaxPos : List User → Option User
  | [] => none
  | u :: l =>
    match firstMaxPos l with
    | none => if 0 < u.reputation then some u else none
    | some w => if w.reputation ≤ u.reputation then some u else some w

/-- One comparison of the `topPerformer` reduce against a candidate best of
the remaining scan; used to relate the fold to `firstMaxPos`. -/
def topStep (acc : Option User) (t : Option User) : Option User :=
  match t with
  | none => acc
  | some w => if accRep acc < w.reputation then some w else acc

/-! ### Concrete records used to evaluate the development on closed inputs -/

/-- A stored user with some history (keyed under `"0xab"`). -/
def sampleUser : User :=
  { address := "0xAb", reputation := 20, completedPromises := 2, failedPromises := 1,
    totalPromises := 3, streak := 2, level := 1, joinedAt := 5, lastActive := 5 }

/-- A stored promise owned by `sampleUser`. -/
def samplePromise : PromiseRec :=
  { id := "p1", address := "0xAb", message := "run 5k", status := some "active",
    deadline := some 100, proof := none, category := some "fitness",
    difficulty := some "easy", createdAt := 1, updatedAt := 1, adminAdjustedProgress := none }

/-- A pending deletion request targeting `samplePromise`. -/
def sampleRequest : DeleteRequest :=
  { id := "r1", promiseId := "p1", requesterAddress := "0xAb", status := "pending",
    requestedAt := 2, processedBy := none, processedAt := none }

/-- A store holding `sampleUser`, `samplePromise` and `sampleRequest`. -/
def sampleState : StorageState :=
  { users := [("0xab", sampleUser)], promises := [samplePromise],
    deleteRequests := [sampleRequest], sessions := [], stats := initialStats }

/-- A store where `sampleRequest` is pending but its target promise is gone. -/
def orphanState : StorageState :=
  { users := [], promises := [], deleteRequests := [sampleRequest], sessions := [],
    stats := initialStats }

/-- A user whose reputation is exactly zero. -/
def zeroRepUser : User :=
  { address := "0xcc", reputation := 0, completedPromises := 0, failedPromises := 0,
    totalPromises := 0, streak := 0, level := 1, joinedAt := 0, lastActive := 0 }

/-- A well-formed `createPromise` body as the UI would send it. -/
def demoData : PromiseData :=
  { address := "0xAb", message := "run 5k", status := some "active",
    deadline := some 100, category := some "fitness", difficulty := some "easy" }

/-- A `createPromise` body that supplies its own `id`. -/
def dupIdData : PromiseData :=
  { id := some "dup", address := "0xAb", message := "m" }

/-! ## Association-list lemmas -/

theorem objGet_cons {α : Type} (p : String × α) (m : List (String × α)) (k : String) :
    objGet (p :: m) k = if p.1 == k then some p.2 else objGet m k := by
  simp only [objGet, List.find?]
  cases h : (p.1 == k) <;> simp [h]

theorem objGet_objSet_self {α : Type} (m : List (String × α)) (k : String) (v : α) :
    objGet (objSet m k v) k = some v := by
  induction m with
  | nil => simp [objSet, objGet_cons]
  | cons p rest ih =>
    simp only [objSet]
    by_cases h : p.1 == k
    · simp [h, objGet_cons]
    · simp [h, objGet_cons, ih]

theorem objGet_objSet_ne {α : Type} (m : List (String × α)) (k k' : String) (v : α)
    (h : k' ≠ k) : objGet (objSet m k v) k' = objGet m k' := by
  induction m with
  | nil =>
    have hk : (k == k') = false := by simp [Ne.symm h]
    simp [objSet, objGet_cons, hk, objGet]
  | cons p rest ih =>
    simp only [objSet]
    by_cases hp : p.1 == k
    · have hp1 : p.1 = k := by simpa using hp
      have hk : (k == k') = false := by simp [Ne.symm h]
      simp [hp, objGet_cons, hk, hp1]
    · simp [hp, objGet_cons, ih]

theorem mem_objSet {α : Type} {m : List (String × α)} {k : String} {v : α} {x : String × α}
    (hx : x ∈ objSet m k v) : x = (k, v) ∨ x ∈ m := by
  induction m with
  | nil => simpa [objSet] using hx
  | cons p rest ih =>
    simp only [objSet] at hx
    by_cases hp : p.1 == k
    · simp only [if_pos hp, List.mem_cons] at hx
      rcases hx with h | h
      · exact Or.inl h
      · exact Or.inr (List.mem_cons_of_mem _ h)
    · simp only [if_neg hp, List.mem_cons] at hx
      rcases hx with h | h
      · exact Or.inr (h ▸ List.mem_cons_self _ _)
      · rcases ih h with h' | h'
        · exact Or.inl h'
        · exact Or.inr (List.mem_cons_of_mem _ h')

theorem objGet_mem {α : Type} {m : List (String × α)} {k : String} {v : α}
    (h : objGet m k = some v) : ∃ k', (k', v) ∈ m := by
  simp only [objGet, Option.map_eq_some'] at h
  obtain ⟨p, hp, hv⟩ := h
  refine ⟨p.1, ?_⟩
  have hmem := List.mem_of_find?_eq_some hp
  simpa [← hv] using hmem

/-! ## First-match surgery lemmas -/

theorem resolveReqList_map_fst (l : List DeleteRequest) (rid st adm : String) (now : Nat) :
    (resolveReqList l rid st adm now).map Prod.fst =
      (l.find? (fun r => r.id == rid)).map (fun r => resolveRequest r st adm now) := by
  induction l with
  | nil => rfl
  | cons r rest ih =>
    simp only [resolveReqList, List.find?]
    cases h : (r.id == rid) with
    | true => simp
    | false =>
      simp only
      rw [← ih]
      cases resolveReqList rest rid st adm now <;> rfl

theorem resolveReqList_some_of_find {l : List DeleteRequest} {rid : String} {r : DeleteRequest}
    (st adm : String) (now : Nat) (h : l.find? (fun r => r.id == rid) = some r) :
    ∃ l₂, resolveReqList l rid st adm now = some (resolveRequest r st adm now, l₂) := by
  have hm := resolveReqList_map_fst l rid st adm now
  rw [h] at hm
  cases hr : resolveReqList l rid st adm now with
  | none => rw [hr] at hm; simp at hm
  | some t =>
    obtain ⟨a, l₂⟩ := t
    rw [hr] at hm
    simp only [Option.map_some', Option.some.injEq] at hm
    exact ⟨l₂, by simp [hr, hm]⟩

theorem resolveReqList_none_iff (l : List DeleteRequest) (rid st adm : String) (now : Nat) :
    resolveReqList l rid st adm now = none ↔ l.find? (fun r => r.id == rid) = none := by
  have hm := resolveReqList_map_fst l rid st adm now
  constructor
  · intro h; rw [h] at hm; simpa using hm.symm
  · intro h; rw [h] at hm; simpa using hm

theorem updatePromiseList_map (l : List PromiseRec) (pid : String) (upd : PromiseUpdates)
    (now : Nat) :
    (updatePromiseList l pid upd now).map (fun t => (t.1, t.2.1)) =
      (l.find? (fun p => p.id == pid)).map (fun p => (p, applyPromiseUpdates p upd now)) := by
  induction l with
  | nil => rfl
  | cons p rest ih =>
    simp only [updatePromiseList, List.find?]
    cases h : (p.id == pid) with
    | true => simp
    | false =>
      simp only
      rw [← ih]
      cases updatePromiseList rest pid upd now <;> rfl

/-! ## Characterizations of the state transformers -/

theorem updateUserReputation_found (s : StorageState) (addr st : String) (now : Nat) (u : User)
    (h : getUser s addr = some u) :
    updateUserReputation s addr st now =
      { s with users := objSet s.users (jsLower addr)
                 (applyUserUpdates u (reputationUpdates u st) now) } := by
  have h' : objGet s.users (jsLower addr) = some u := h
  simp only [updateUserReputation, h, updateUser, h']

theorem deletePromise_none (s : StorageState) (pid : String) (now : Nat)
    (h : s.promises.find? (fun p => p.id == pid) = none) :
    deletePromise s pid now = (Except.error ("Promise " ++ pid ++ " not found"), s) := by
  simp only [deletePromise, h]

theorem deletePromise_found (s : StorageState) (pid : String) (now : Nat)
    (pr : PromiseRec) (owner : User)
    (hpr : s.promises.find? (fun p => p.id == pid) = some pr)
    (howner : getUser s pr.address = some owner) :
    deletePromise s pid now =
      (Except.ok (),
        updateGlobalStats
          { s with promises := s.promises.filter (fun p => p.id != pid),
                   users := objSet s.users (jsLower pr.address)
                     (applyUserUpdates owner
                       { totalPromises := some (max 0 (owner.totalPromises - 1)) } now) } now) := by
  have h2 : objGet s.users (jsLower pr.address) = some owner := howner
  simp only [deletePromise, hpr, getUser, updateUser, h2]

theorem createPromise_eq_none (s : StorageState) (pd : PromiseData) (genId : String)
    (now : Nat) (h : getUser s pd.address = none) :
    createPromise s pd genId now =
      (Except.ok (mkNewPromise pd genId now),
        updateGlobalStats
          { s with
            users := objSet (objSet s.users (jsLower pd.address) (freshUser pd.address now))
              (jsLower pd.address)
              (applyUserUpdates (freshUser pd.address now)
                { totalPromises := some ((freshUser pd.address now).totalPromises + 1) } now),
            promises := s.promises ++ [mkNewPromise pd genId now] } now) := by
  simp only [createPromise, h, createUser, updateUser, updateGlobalStats, objGet_objSet_self]

theorem createPromise_eq_some (s : StorageState) (pd : PromiseData) (genId : String)
    (now : Nat) (u : User) (h : getUser s pd.address = some u) :
    createPromise s pd genId now =
      (Except.ok (mkNewPromise pd genId now),
        updateGlobalStats
          { s with
            users := objSet s.users (jsLower pd.address)
              (applyUserUpdates u { totalPromises := some (u.totalPromises + 1) } now),
            promises := s.promises ++ [mkNewPromise pd genId now] } now) := by
  have h2 : objGet s.users (jsLower pd.address) = some u := h
  simp only [createPromise, h, updateUser, h2, updateGlobalStats]

theorem createPromise_spec (s : StorageState) (pd : PromiseData) (genId : String) (now : Nat) :
    (createPromise s pd genId now).1 = Except.ok (mkNewPromise pd genId now) ∧
    (createPromise s pd genId now).2.promises = s.promises ++ [mkNewPromise pd genId now] ∧
    (createPromise s pd genId now).2.deleteRequests = s.deleteRequests ∧
    (createPromise s pd genId now).2.sessions = s.sessions ∧
    (getUser s pd.address = none →
      objGet (createPromise s pd genId now).2.users (jsLower pd.address) =
        some { address := pd.address, reputation := 0, completedPromises := 0,
               failedPromises := 0, totalPromises := 1, streak := 0, level := 1,
               joinedAt := now, lastActive := now }) ∧
    (∀ u, getUser s pd.address = some u →
      objGet (createPromise s pd genId now).2.users (jsLower pd.address) =
        some (applyUserUpdates u { totalPromises := some (u.totalPromises + 1) } now)) := by
  cases h : getUser s pd.address with
  | none =>
    rw [createPromise_eq_none s pd genId now h]
    refine ⟨rfl, rfl, rfl, rfl, fun _ => ?_, fun u hu => by simp [h] at hu⟩
    show objGet (objSet _ _ _) _ = _
    rw [objGet_objSet_self]
    simp [applyUserUpdates, freshUser]
  | some u =>
    rw [createPromise_eq_some s pd genId now u h]
    refine ⟨rfl, rfl, rfl, rfl, fun hn => by simp [h] at hn, fun u' hu' => ?_⟩
    obtain rfl : u = u' := by injection hu'
    show objGet (objSet _ _ _) _ = _
    rw [objGet_objSet_self]

/-! ## Per-user invariant machinery -/

/-- All users of a collection satisfy the spec invariant. -/
def UsersOK (m : List (String × User)) : Prop := ∀ kv ∈ m, UserOK kv.2

theorem usersOK_objSet {m : List (String × User)} {k : String} {v : User}
    (h : UsersOK m) (hv : UserOK v) : UsersOK (objSet m k v) := by
  intro kv hkv
  rcases mem_objSet hkv with h' | h'
  · rw [h']; exact hv
  · exact h kv h'

theorem usersOK_objGet {m : List (String × User)} {k : String} {v : User}
    (h : UsersOK m) (hg : objGet m k = some v) : UserOK v := by
  obtain ⟨k', hk'⟩ := objGet_mem hg
  exact h (k', v) hk'

theorem userOK_counters {u : User} {upd : UserUpdates} {now : Nat} (h : UserOK u)
    (hrep : upd.reputation = none) (hlev : upd.level = none) :
    UserOK (applyUserUpdates u upd now) := by
  simpa [applyUserUpdates, UserOK, hrep, hlev] using h

theorem userOK_reputationUpdates (u user : User) (st : String) (now : Nat) :
    UserOK (applyUserUpdates u (reputationUpdates user st) now) := by
  constructor
  · simp [applyUserUpdates, reputationUpdates]
  · simp [applyUserUpdates, reputationUpdates]

theorem usersOK_updateUser {s : StorageState} {a : String} {upd : UserUpdates} {now : Nat}
    (h : UsersOK s.users)
    (hupd : ∀ u, objGet s.users (jsLower a) = some u → UserOK (applyUserUpdates u upd now)) :
    UsersOK (updateUser s a upd now).2.users := by
  unfold updateUser
  cases hg : objGet s.users (jsLower a) with
  | none => simpa using h
  | some u => exact usersOK_objSet h (hupd u hg)

theorem usersOK_updateUserReputation {s : StorageState} {a st : String} {now : Nat}
    (h : UsersOK s.users) : UsersOK (updateUserReputation s a st now).users := by
  unfold updateUserReputation
  cases hg : getUser s a with
  | none => exact h
  | some user =>
    exact usersOK_updateUser h (fun u _ => userOK_reputationUpdates u user st now)

theorem userOK_freshUser (a : String) (now : Nat) : UserOK (freshUser a now) := by
  constructor
  · exact le_refl 0
  · rfl

theorem usersOK_createUser {s : StorageState} {a : String} {now : Nat}
    (h : UsersOK s.users) : UsersOK (createUser s a now).2.users := by
  unfold createUser updateGlobalStats
  exact usersOK_objSet h (userOK_freshUser a now)

theorem usersOK_createPromise {s : StorageState} {pd : PromiseData} {genId : String}
    {now : Nat} (h : UsersOK s.users) : UsersOK (createPromise s pd genId now).2.users := by
  unfold createPromise
  cases hg : getUser s pd.address with
  | some u =>
    simp only
    have step : UsersOK (updateUser { s with promises := s.promises ++ [mkNewPromise pd genId now] }
        pd.address { totalPromises := some (u.totalPromises + 1) } now).2.users := by
      refine usersOK_updateUser h ?_
      intro u' hu'
      exact userOK_counters (usersOK_objGet h hu') rfl rfl
    cases hr : (updateUser { s with promises := s.promises ++ [mkNewPromise pd genId now] }
        pd.address { totalPromises := some (u.totalPromises + 1) } now).1 with
    | error e => simpa [hr] using step
    | ok v => simpa [hr, updateGlobalStats] using step
  | none =>
    simp only
    have hcu : UsersOK (createUser s pd.address now).2.users := usersOK_createUser h
    have step : UsersOK (updateUser
        { (createUser s pd.address now).2 with
          promises := (createUser s pd.address now).2.promises ++ [mkNewPromise pd genId now] }
        pd.address { totalPromises := some ((createUser s pd.address now).1.totalPromises + 1) }
        now).2.users := by
      refine usersOK_updateUser hcu ?_
      intro u' hu'
      exact userOK_counters (usersOK_objGet hcu hu') rfl rfl
    cases hr : (updateUser
        { (createUser s pd.address now).2 with
          promises := (createUser s pd.address now).2.promises ++ [mkNewPromise pd genId now] }
        pd.address { totalPromises := some ((createUser s pd.address now).1.totalPromises + 1) }
        now).1 with
    | error e => simpa [hr] using step
    | ok v => simpa [hr, updateGlobalStats] using step

theorem usersOK_deletePromise {s : StorageState} {pid : String} {now : Nat}
    (h : UsersOK s.users) : UsersOK (deletePromise s pid now).2.users := by
  unfold deletePromise
  cases hf : s.promises.find? (fun p => p.id == pid) with
  | none => exact h
  | some pr =>
    simp only [updateGlobalStats]
    cases hg : getUser { s with promises := s.promises.filter (fun p => p.id != pid) }
        pr.address with
    | none => exact h
    | some user =>
      exact usersOK_updateUser h (fun u hu => userOK_counters (usersOK_objGet h hu) rfl rfl)

theorem usersOK_updatePromise {s : StorageState} {pid : String} {upd : PromiseUpdates}
    {now : Nat} (h : UsersOK s.users) : UsersOK (updatePromise s pid upd now).2.users := by
  unfold updatePromise
  cases hf : updatePromiseList s.promises pid upd now with
  | none => exact h
  | some t =>
    obtain ⟨oldP, newP, pl⟩ := t
    simp only [updateGlobalStats]
    split
    · exact usersOK_updateUserReputation h
    · exact h

theorem usersOK_updateDeleteRequestStatus {s : StorageState} {rid st adm : String} {now : Nat}
    (h : UsersOK s.users) : UsersOK (updateDeleteRequestStatus s rid st adm now).2.users := by
  unfold updateDeleteRequestStatus
  cases hf : resolveReqList s.deleteRequests rid st adm now with
  | none => exact h
  | some t =>
    obtain ⟨req, rl⟩ := t
    simp only
    by_cases hst : st = "approved"
    · simp only [if_pos hst]
      have hd := @usersOK_deletePromise { s with deleteRequests := rl } req.promiseId now h
      cases hdp : deletePromise { s with deleteRequests := rl } req.promiseId now with
      | mk fst snd =>
        rw [hdp] at hd
        cases fst with
        | error e => exact hd
        | ok v => exact hd
    · simp only [if_neg hst]
      exact h

theorem usersOK_addDeleteRequest {s : StorageState} {pid ra genId : String} {now : Nat}
    (h : UsersOK s.users) : UsersOK (addDeleteRequest s pid ra genId now).2.users := by
  unfold addDeleteRequest
  cases hf : s.deleteRequests.find? (fun r => r.promiseId == pid && r.status == "pending") with
  | some r => exact h
  | none => exact h

theorem usersOK_stepOp {s : StorageState} (h : UsersOK s.users) (op : Op) :
    UsersOK (stepOp s op).users := by
  cases op with
  | create pd genId now => exact usersOK_createPromise h
  | setStatus pid upd now => exact usersOK_updatePromise h
  | requestDel pid ra genId now => exact usersOK_addDeleteRequest h
  | resolveDel rid st adm now => exact usersOK_updateDeleteRequestStatus h

theorem usersOK_foldl (ops : List Op) : ∀ s : StorageState, UsersOK s.users →
    UsersOK (ops.foldl stepOp s).users := by
  induction ops with
  | nil => intro s h; exact h
  | cons op rest ih => intro s h; exact ih _ (usersOK_stepOp h op)

/-! ## Pending-request counting lemmas -/

theorem find?_append_of_none {α : Type} (p : α → Bool) {l₁ : List α} (l₂ : List α)
    (h : l₁.find? p = none) : (l₁ ++ l₂).find? p = l₂.find? p := by
  induction l₁ with
  | nil => rfl
  | cons a l ih =>
    by_cases ha : p a
    · rw [List.find?_cons_of_pos _ ha] at h
      exact absurd h (by simp)
    · rw [List.find?_cons_of_neg _ ha] at h
      rw [List.cons_append, List.find?_cons_of_neg _ ha]
      exact ih h

theorem countPending_eq_zero_iff (l : List DeleteRequest) (pid : String) :
    countPending l pid = 0 ↔
      l.find? (fun r => r.promiseId == pid && r.status == "pending") = none := by
  simp [countPending, List.length_eq_zero, List.filter_eq_nil_iff, List.find?_eq_none]

theorem countPending_append (l₁ l₂ : List DeleteRequest) (pid : String) :
    countPending (l₁ ++ l₂) pid = countPending l₁ pid + countPending l₂ pid := by
  simp [countPending, List.filter_append]

/-! ## topPerformer scan lemmas -/

theorem firstMaxPos_pos : ∀ {l : List User} {w : User}, firstMaxPos l = some w →
    0 < w.reputation := by
  intro l
  induction l with
  | nil => intro w h; cases h
  | cons u l ih =>
    intro w h
    cases hfm : firstMaxPos l with
    | none =>
      simp only [firstMaxPos, hfm] at h
      split at h
      · cases h; assumption
      · cases h
    | some w' =>
      simp only [firstMaxPos, hfm] at h
      split at h
      · cases h
        exact lt_of_lt_of_le (ih hfm) (by assumption)
      · cases h
        exact ih hfm

theorem firstMaxPos_mem : ∀ {l : List User} {w : User}, firstMaxPos l = some w → w ∈ l := by
  intro l
  induction l with
  | nil => intro w h; cases h
  | cons u l ih =>
    intro w h
    cases hfm : firstMaxPos l with
    | none =>
      simp only [firstMaxPos, hfm] at h
      split at h
      · cases h; exact List.mem_cons_self _ _
      · cases h
    | some w' =>
      simp only [firstMaxPos, hfm] at h
      split at h
      · cases h; exact List.mem_cons_self _ _
      · cases h; exact List.mem_cons_of_mem _ (ih hfm)

theorem firstMaxPos_none_iff : ∀ (l : List User),
    firstMaxPos l = none ↔ ∀ u ∈ l, u.reputation ≤ 0 := by
  intro l
  induction l with
  | nil => simp [firstMaxPos]
  | cons u l ih =>
    cases hfm : firstMaxPos l with
    | none =>
      have hall : ∀ v ∈ l, v.reputation ≤ 0 := ih.1 hfm
      by_cases hu : 0 < u.reputation
      · simp only [firstMaxPos, hfm, if_pos hu]
        constructor
        · intro h; cases h
        · intro h
          exfalso
          have := h u (List.mem_cons_self _ _)
          omega
      · simp only [firstMaxPos, hfm, if_neg hu]
        constructor
        · intro _ v hv
          rcases List.mem_cons.mp hv with rfl | hv'
          · omega
          · exact hall v hv'
        · intro _; trivial
    | some w' =>
      have hw' := firstMaxPos_pos hfm
      have hmem := firstMaxPos_mem hfm
      simp only [firstMaxPos, hfm]
      constructor
      · intro h
        split at h <;> cases h
      · intro h
        exfalso
        have := h w' (List.mem_cons_of_mem _ hmem)
        omega

theorem firstMaxPos_max : ∀ {l : List User} {w : User}, firstMaxPos l = some w →
    ∀ v ∈ l, v.reputation ≤ w.reputation := by
  intro l
  induction l with
  | nil => intro w h; cases h
  | cons u l ih =>
    intro w h v hv
    rcases List.mem_cons.mp hv with hvu | hv'
    · subst hvu
      cases hfm : firstMaxPos l with
      | none =>
        simp only [firstMaxPos, hfm] at h
        split at h
        · cases h; exact le_refl _
        · cases h
      | some w' =>
        simp only [firstMaxPos, hfm] at h
        split at h
        · cases h; exact le_refl _
        · cases h; omega
    · cases hfm : firstMaxPos l with
      | none =>
        have hall := (firstMaxPos_none_iff l).1 hfm
        simp only [firstMaxPos, hfm] at h
        split at h
        · cases h
          have := hall v hv'
          omega
        · cases h
      | some w' =>
        have hmax := ih hfm v hv'
        simp only [firstMaxPos, hfm] at h
        split at h
        · cases h; omega
        · cases h; exact hmax

theorem firstMaxPos_first : ∀ {l : List User} {w : User}, firstMaxPos l = some w →
    ∃ i, ∃ hi : i < l.length, l.get ⟨i, hi⟩ = w ∧
      ∀ j, ∀ hj : j < l.length, j < i → (l.get ⟨j, hj⟩).reputation < w.reputation := by
  intro l
  induction l with
  | nil => intro w h; cases h
  | cons u l ih =>
    intro w h
    cases hfm : firstMaxPos l with
    | none =>
      simp only [firstMaxPos, hfm] at h
      split at h
      · cases h
        exact ⟨0, by simp, rfl, fun j hj hj0 => absurd hj0 (by omega)⟩
      · cases h
    | some w' =>
      simp only [firstMaxPos, hfm] at h
      split at h
      · cases h
        exact ⟨0, by simp, rfl, fun j hj hj0 => absurd hj0 (by omega)⟩
      · cases h
        obtain ⟨i, hi, hget, hprior⟩ := ih hfm
        refine ⟨i + 1, by simpa using hi, hget, ?_⟩
        intro j hj hj1
        cases j with
        | zero =>
          show u.reputation < _
          omega
        | succ j' =>
          have hj' : j' < l.length := by simpa using hj
          exact hprior j' hj' (by omega)

theorem topReduce_go : ∀ (l : List User) (acc : Option User),
    (∀ v, acc = some v → 0 < v.reputation) →
    l.foldl (fun top u => if accRep top < u.reputation then some u else top) acc =
      topStep acc (firstMaxPos l) := by
  intro l
  induction l with
  | nil => intro acc hacc; rfl
  | cons u l ih =>
    intro acc hacc
    have haccnn : 0 ≤ accRep acc := by
      cases acc with
      | none => exact le_refl 0
      | some v => exact le_of_lt (hacc v rfl)
    have hacc' : ∀ v, (if accRep acc < u.reputation then some u else acc) = some v →
        0 < v.reputation := by
      intro v hv
      split at hv
      · cases hv; omega
      · exact hacc v hv
    rw [List.foldl_cons, ih _ hacc']
    cases hfm : firstMaxPos l with
    | none =>
      simp only [firstMaxPos, hfm, topStep]
      by_cases hu : 0 < u.reputation
      · rw [if_pos hu]
      · rw [if_neg hu, if_neg (show ¬ accRep acc < u.reputation by omega)]
    | some w =>
      have hw := firstMaxPos_pos hfm
      simp only [firstMaxPos, hfm]
      by_cases hcmp : w.reputation ≤ u.reputation
      · rw [if_pos hcmp]
        simp only [topStep]
        by_cases h1 : accRep acc < u.reputation
        · rw [if_pos h1, show accRep (some u) = u.reputation from rfl]
          rw [if_neg (by omega)]
        · rw [if_neg h1]
          rw [if_neg (by omega)]
      · rw [if_neg hcmp]
        simp only [topStep]
        by_cases h1 : accRep acc < u.reputation
        · rw [if_pos h1, show accRep (some u) = u.reputation from rfl]
          rw [if_pos (by omega), if_pos (by omega)]
        · simp only [if_neg h1]

theorem topReduce_eq_firstMaxPos (l : List User) : topReduce l = firstMaxPos l := by
  have h := topReduce_go l none (by intro v hv; cases hv)
  unfold topReduce
  rw [h]
  cases hfm : firstMaxPos l with
  | none => rfl
  | some w =>
    have hw := firstMaxPos_pos hfm
    simp only [topStep, accRep]
    rw [if_pos hw]

/-! ## Claim theorems -/

/-- C1: applying the `completed` outcome to a stored user adds 10
reputation, one completed promise and one streak step; applying `failed`
floors reputation at 0 after subtracting 5, adds one failed promise and
resets the streak; in both cases the new level is
`⌊newReputation / 50⌋ + 1`. -/
theorem reputationOutcome_fields (s : StorageState) (addr : String) (now : Nat) (u : User)
    (h1 : getUser s addr = some u) (h2 : 0 ≤ u.reputation) :
    (∃ u', getUser (updateUserReputation s addr "completed" now) addr = some u' ∧
      u'.reputation = u.reputation + 10 ∧
      u'.completedPromises = u.completedPromises + 1 ∧
      u'.streak = u.streak + 1 ∧
      u'.level = Int.fdiv u'.reputation 50 + 1) ∧
    (∃ u'', getUser (updateUserReputation s addr "failed" now) addr = some u'' ∧
      u''.reputation = max 0 (u.reputation - 5) ∧
      u''.failedPromises = u.failedPromises + 1 ∧
      u''.streak = 0 ∧
      u''.level = Int.fdiv u''.reputation 50 + 1) := by
  constructor
  · rw [updateUserReputation_found s addr "completed" now u h1]
    refine ⟨applyUserUpdates u (reputationUpdates u "completed") now,
      objGet_objSet_self _ _ _, ?_, ?_, ?_, ?_⟩
    · simp [applyUserUpdates, reputationUpdates]
      omega
    · simp [applyUserUpdates, reputationUpdates]
    · simp [applyUserUpdates, reputationUpdates]
    · simp [applyUserUpdates, reputationUpdates]
  · rw [updateUserReputation_found s addr "failed" now u h1]
    refine ⟨applyUserUpdates u (reputationUpdates u "failed") now,
      objGet_objSet_self _ _ _, ?_, ?_, ?_, ?_⟩
    · simp [applyUserUpdates, reputationUpdates]
      omega
    · simp [applyUserUpdates, reputationUpdates]
    · simp [applyUserUpdates, reputationUpdates]
    · simp [applyUserUpdates, reputationUpdates]

/-- C1 witness: the two outcomes evaluated on `sampleUser` (reputation 20)
inside `sampleState`. -/
theorem reputationOutcome_fields_app :
    (∃ u', getUser (updateUserReputation sampleState "0xAb" "completed" 9) "0xAb" = some u' ∧
      u'.reputation = 30) ∧
    (∃ u'', getUser (updateUserReputation sampleState "0xAb" "failed" 9) "0xAb" = some u'' ∧
      u''.reputation = 15) := by
  obtain ⟨⟨u', hg, hrep, -, -, -⟩, ⟨u'', hg', hrep', -, -, -⟩⟩ :=
    reputationOutcome_fields sampleState "0xAb" 9 sampleUser (by decide) (by decide)
  exact ⟨⟨u', hg, by simpa [sampleUser] using hrep⟩,
    ⟨u'', hg', by simpa [sampleUser] using hrep'⟩⟩

/-- C4: after any sequence of core operations run from the initial store,
every stored user has non-negative reputation and a level equal to
`⌊reputation / 50⌋ + 1`. -/
theorem coreOps_reputation_invariant (ops : List Op) (kv : String × User)
    (hkv : kv ∈ (runOps ops).users) :
    0 ≤ kv.2.reputation ∧ kv.2.level = Int.fdiv kv.2.reputation 50 + 1 := by
  have h := usersOK_foldl ops initState (by intro x hx; cases hx)
  exact h kv hkv

/-- C4 witness: the invariant read off a two-step history (create a
promise, then complete it). -/
theorem coreOps_reputation_invariant_app :
    (("0xab", (⟨"0xAb", 10, 1, 0, 1, 1, 1, 1, 2⟩ : User)) ∈
      (runOps [Op.create demoData "gen1" 1,
        Op.setStatus "gen1" { status := some "completed" } 2]).users) ∧
    (0 : Int) ≤ 10 ∧ (1 : Int) = Int.fdiv 10 50 + 1 := by
  have h := coreOps_reputation_invariant
    [Op.create demoData "gen1" 1, Op.setStatus "gen1" { status := some "completed" } 2]
    ("0xab", (⟨"0xAb", 10, 1, 0, 1, 1, 1, 1, 2⟩ : User)) (by decide)
  exact ⟨by decide, h.1, h.2⟩

theorem updateDeleteRequestStatus_eq_some {s : StorageState} {rid st adm : String}
    {now : Nat} {t : DeleteRequest × List DeleteRequest}
    (hres : resolveReqList s.deleteRequests rid st adm now = some t) :
    updateDeleteRequestStatus s rid st adm now =
      (if st = "approved" then
        match deletePromise { s with deleteRequests := t.2 } t.1.promiseId now with
        | (Except.error e, s₂) => (Except.error e, s₂)
        | (Except.ok _, s₂) => (Except.ok t.1, s₂)
      else (Except.ok t.1, { s with deleteRequests := t.2 })) := by
  obtain ⟨a, l₂⟩ := t
  simp only [updateDeleteRequestStatus, hres]

theorem deletePromise_ok_of_find {s : StorageState} {pid : String} {now : Nat}
    {pr : PromiseRec} (hpf : s.promises.find? (fun p => p.id == pid) = some pr) :
    (deletePromise s pid now).1 = Except.ok () := by
  simp only [deletePromise, hpf]

/-- C2: resolving an existing delete request as `approved` removes the
target promise, floors the owner's `totalPromises` decrement at 0, and
recomputes the global stats from the post-state; resolving it as
`rejected` leaves promises and users untouched. -/
theorem resolveDeleteRequest_cascade (s : StorageState) (rid adm : String) (now : Nat)
    (req : DeleteRequest) (pr : PromiseRec) (owner : User)
    (hreq : s.deleteRequests.find? (fun r => r.id == rid) = some req)
    (hpr : s.promises.find? (fun p => p.id == req.promiseId) = some pr)
    (howner : getUser s pr.address = some owner) :
    (∃ r', (updateDeleteRequestStatus s rid "approved" adm now).1 = Except.ok r') ∧
    (updateDeleteRequestStatus s rid "approved" adm now).2.promises =
      s.promises.filter (fun p => p.id != req.promiseId) ∧
    (∃ owner', getUser (updateDeleteRequestStatus s rid "approved" adm now).2 pr.address =
      some owner' ∧ owner'.totalPromises = max 0 (owner.totalPromises - 1)) ∧
    (updateDeleteRequestStatus s rid "approved" adm now).2.stats =
      computeGlobalStats (updateDeleteRequestStatus s rid "approved" adm now).2.users
        (updateDeleteRequestStatus s rid "approved" adm now).2.promises
        (updateDeleteRequestStatus s rid "approved" adm now).2.sessions now ∧
    (updateDeleteRequestStatus s rid "rejected" adm now).2.promises = s.promises ∧
    (updateDeleteRequestStatus s rid "rejected" adm now).2.users = s.users := by
  obtain ⟨l₂, hres⟩ := resolveReqList_some_of_find "approved" adm now hreq
  obtain ⟨l₂', hres'⟩ := resolveReqList_some_of_find "rejected" adm now hreq
  have heq := updateDeleteRequestStatus_eq_some hres
  rw [if_pos rfl] at heq
  have heq' := updateDeleteRequestStatus_eq_some hres'
  rw [if_neg (by decide)] at heq'
  have hpr₁ : ({ s with deleteRequests := l₂ } : StorageState).promises.find?
      (fun p => p.id == (resolveRequest req "approved" adm now).promiseId) = some pr := hpr
  have howner₁ : getUser ({ s with deleteRequests := l₂ } : StorageState) pr.address =
      some owner := howner
  have hdel := deletePromise_found { s with deleteRequests := l₂ }
    (resolveRequest req "approved" adm now).promiseId now pr owner hpr₁ howner₁
  rw [hdel] at heq
  have heq₂ : updateDeleteRequestStatus s rid "approved" adm now =
      (Except.ok (resolveRequest req "approved" adm now),
        updateGlobalStats
          { s with
            deleteRequests := l₂,
            promises := s.promises.filter
                (fun p => p.id != (resolveRequest req "approved" adm now).promiseId),
            users := objSet s.users (jsLower pr.address)
                (applyUserUpdates owner
                  { totalPromises := some (max 0 (owner.totalPromises - 1)) } now) } now) := heq
  have hpid : (resolveRequest req "approved" adm now).promiseId = req.promiseId := rfl
  refine ⟨⟨resolveRequest req "approved" adm now, by rw [heq₂]⟩, ?_, ?_, ?_, ?_, ?_⟩
  · rw [heq₂, hpid]
    rfl
  · refine ⟨applyUserUpdates owner
      { totalPromises := some (max 0 (owner.totalPromises - 1)) } now, ?_, rfl⟩
    rw [heq₂]
    exact objGet_objSet_self _ _ _
  · rw [heq₂]
    rfl
  · rw [heq']
  · rw [heq']

/-- C2 witness: approving `sampleRequest` inside `sampleState` empties the
promise list and drops the owner to `totalPromises = 2`; rejecting it
leaves the promise list intact. -/
theorem resolveDeleteRequest_cascade_app :
    (updateDeleteRequestStatus sampleState "r1" "approved" "0xadmin" 9).2.promises = [] ∧
    (∃ owner', getUser (updateDeleteRequestStatus sampleState "r1" "approved" "0xadmin" 9).2
      samplePromise.address = some owner' ∧ owner'.totalPromises = 2) ∧
    (updateDeleteRequestStatus sampleState "r1" "rejected" "0xadmin" 9).2.promises =
      [samplePromise] := by
  obtain ⟨-, hprom, ⟨owner', hg, htot⟩, -, hrej, -⟩ :=
    resolveDeleteRequest_cascade sampleState "r1" "0xadmin" 9 sampleRequest samplePromise
      sampleUser (by decide) (by decide) (by decide)
  refine ⟨by rw [hprom]; decide, ⟨owner', hg, by simpa [sampleUser] using htot⟩, ?_⟩
  rw [hrej]
  rfl

/-- C3: submitting a delete request is idempotent — an existing pending
request for the promise is returned unchanged with no new record — the
at-most-one-pending-per-promise invariant is preserved, and two
successive submissions before resolution leave exactly one pending
request for that promise. -/
theorem addDeleteRequest_pending_unique (s : StorageState) (pid ra₁ ra₂ g₁ g₂ : String)
    (n₁ n₂ : Nat) :
    (∀ ex, s.deleteRequests.find?
        (fun r => r.promiseId == pid && r.status == "pending") = some ex →
      addDeleteRequest s pid ra₁ g₁ n₁ = (ex, s)) ∧
    (∀ q, countPending s.deleteRequests q ≤ 1 →
      countPending (addDeleteRequest s pid ra₁ g₁ n₁).2.deleteRequests q ≤ 1) ∧
    (countPending s.deleteRequests pid = 0 →
      countPending
        (addDeleteRequest (addDeleteRequest s pid ra₁ g₁ n₁).2 pid ra₂ g₂ n₂).2.deleteRequests
        pid = 1) := by
  refine ⟨?_, ?_, ?_⟩
  · intro ex hex
    simp only [addDeleteRequest, hex]
  · intro q hq
    cases hex : s.deleteRequests.find?
        (fun r => r.promiseId == pid && r.status == "pending") with
    | some ex =>
      simp only [addDeleteRequest, hex]
      exact hq
    | none =>
      simp only [addDeleteRequest, hex]
      rw [countPending_append]
      by_cases hqp : q = pid
      · subst hqp
        have h0 : countPending s.deleteRequests q = 0 := (countPending_eq_zero_iff _ _).2 hex
        rw [h0]
        simp [countPending]
      · have h1 : countPending
            [{ id := g₁, promiseId := pid, requesterAddress := ra₁, status := "pending",
               requestedAt := n₁, processedBy := none, processedAt := none }] q = 0 := by
          simp [countPending]
          intro h
          exact absurd h.symm hqp
        rw [h1]
        omega
  · intro h0
    have hex : s.deleteRequests.find?
        (fun r => r.promiseId == pid && r.status == "pending") = none :=
      (countPending_eq_zero_iff _ _).1 h0
    simp only [addDeleteRequest, hex]
    have hfind2 : ((s.deleteRequests ++
        [({ id := g₁, promiseId := pid, requesterAddress := ra₁, status := "pending",
            requestedAt := n₁, processedBy := none, processedAt := none } : DeleteRequest)]).find?
          (fun r => r.promiseId == pid && r.status == "pending")) =
        some { id := g₁, promiseId := pid, requesterAddress := ra₁, status := "pending",
               requestedAt := n₁, processedBy := none, processedAt := none } := by
      rw [find?_append_of_none _ _ hex]
      simp [List.find?]
    simp only [hfind2]
    rw [countPending_append, h0]
    simp [countPending]

/-- C3 witness: resubmitting for `samplePromise` inside `orphanState`
returns the stored pending request and changes nothing; two fresh
submissions on the empty store leave exactly one pending request. -/
theorem addDeleteRequest_pending_unique_app :
    addDeleteRequest orphanState "p1" "0xzz" "g9" 9 = (sampleRequest, orphanState) ∧
    countPending
      (addDeleteRequest (addDeleteRequest initState "p7" "0xzz" "g1" 1).2
        "p7" "0xyy" "g2" 2).2.deleteRequests "p7" = 1 := by
  constructor
  · exact (addDeleteRequest_pending_unique orphanState "p1" "0xzz" "0xzz" "g9" "g9" 9 9).1
      sampleRequest (by decide)
  · exact (addDeleteRequest_pending_unique initState "p7" "0xzz" "0xyy" "g1" "g2" 1 2).2.2
      (by decide)

/-- C5 counterexample: approving a pending request whose target promise is
gone fails, yet the request-status change is already persisted — the
post-failure state differs from the pre-state. -/
theorem approve_missing_promise_partial_write :
    (∃ e, (updateDeleteRequestStatus orphanState "r1" "approved" "0xadmin" 9).1 =
      Except.error e) ∧
    (updateDeleteRequestStatus orphanState "r1" "approved" "0xadmin" 9).2 ≠ orphanState := by
  constructor
  · exact ⟨"Promise p1 not found", by rfl⟩
  · decide

/-- C5 amended: `createPromise` never fails; `updatePromise` and
`deletePromise` leave the store unchanged when they fail; and the sole
non-atomic case is `updateDeleteRequestStatus` resolving `approved` a
request whose target promise is absent, which persists the resolved
request list before propagating the failure. -/
theorem mutating_ops_atomicity_amended (s : StorageState) (pd : PromiseData)
    (genId pid rid st adm : String) (pu : PromiseUpdates) (now : Nat) :
    (∃ p, (createPromise s pd genId now).1 = Except.ok p) ∧
    (∀ e, (updatePromise s pid pu now).1 = Except.error e →
      (updatePromise s pid pu now).2 = s) ∧
    (∀ e, (deletePromise s pid now).1 = Except.error e → (deletePromise s pid now).2 = s) ∧
    (∀ e, (updateDeleteRequestStatus s rid st adm now).1 = Except.error e →
      (updateDeleteRequestStatus s rid st adm now).2 = s ∨
      (st = "approved" ∧ ∃ req l₂,
        resolveReqList s.deleteRequests rid st adm now = some (req, l₂) ∧
        s.promises.find? (fun p => p.id == req.promiseId) = none ∧
        (updateDeleteRequestStatus s rid st adm now).2 = { s with deleteRequests := l₂ })) := by
  refine ⟨⟨mkNewPromise pd genId now, (createPromise_spec s pd genId now).1⟩, ?_, ?_, ?_⟩
  · intro e he
    cases hl : updatePromiseList s.promises pid pu now with
    | none => simp only [updatePromise, hl]
    | some t =>
      obtain ⟨a, b, c⟩ := t
      simp only [updatePromise, hl] at he
      cases he
  · intro e he
    cases hf : s.promises.find? (fun p => p.id == pid) with
    | none => simp only [deletePromise, hf]
    | some pr =>
      have := @deletePromise_ok_of_find s pid now pr hf
      rw [this] at he
      cases he
  · intro e he
    cases hres : resolveReqList s.deleteRequests rid st adm now with
    | none =>
      left
      simp only [updateDeleteRequestStatus, hres]
    | some t =>
      obtain ⟨req, l₂⟩ := t
      have hkey := updateDeleteRequestStatus_eq_some hres
      by_cases hst : st = "approved"
      · rw [if_pos hst] at hkey
        cases hpf : s.promises.find? (fun p => p.id == req.promiseId) with
        | some pr =>
          exfalso
          have hok : (deletePromise { s with deleteRequests := l₂ } req.promiseId now).1 =
              Except.ok () :=
            @deletePromise_ok_of_find { s with deleteRequests := l₂ } req.promiseId now pr hpf
          cases hd : deletePromise { s with deleteRequests := l₂ } req.promiseId now with
          | mk f s₂ =>
            rw [hd] at hkey hok
            cases f with
            | error e' => cases hok
            | ok v =>
              rw [hkey] at he
              cases he
        | none =>
          right
          have hdel : deletePromise { s with deleteRequests := l₂ } req.promiseId now =
              (Except.error ("Promise " ++ req.promiseId ++ " not found"),
                { s with deleteRequests := l₂ }) :=
            deletePromise_none _ _ _ hpf
          rw [hdel] at hkey
          have hkey₂ : updateDeleteRequestStatus s rid st adm now =
              (Except.error ("Promise " ++ req.promiseId ++ " not found"),
                { s with deleteRequests := l₂ }) := hkey
          exact ⟨hst, req, l₂, rfl, hpf, by rw [hkey₂]⟩
      · exfalso
        rw [if_neg hst] at hkey
        rw [hkey] at he
        cases he

/-- C5 witness: the atomicity clauses evaluated on concrete failing calls
(`deletePromise` and `updatePromise` on an unknown id), plus a successful
`createPromise`. -/
theorem mutating_ops_atomicity_amended_app :
    (deletePromise initState "nope" 3).2 = initState ∧
    (updatePromise initState "nope" { status := some "completed" } 3).2 = initState ∧
    (∃ p, (createPromise initState demoData "g1" 3).1 = Except.ok p) := by
  obtain ⟨hc, hu, hd, -⟩ := mutating_ops_atomicity_amended initState demoData "g1" "nope"
    "r1" "approved" "0xadmin" { status := some "completed" } 3
  exact ⟨hd ("Promise nope not found") (by rfl),
    hu ("Promise nope not found") (by rfl), hc⟩

/-- C6 counterexample: a successful `createPromise` whose body carries
`status: "completed"` persists that status verbatim — the appended record
is not forced to `active`. -/
theorem createPromise_status_not_forced_active :
    (∃ p, (createPromise initState
      { address := "0xab", message := "m", status := some "completed" } "g1" 1).1 =
        Except.ok p) ∧
    ((createPromise initState
      { address := "0xab", message := "m", status := some "completed" } "g1" 1).2.promises.map
        PromiseRec.status) = [some "completed"] := by
  constructor
  · exact ⟨mkNewPromise { address := "0xab", message := "m", status := some "completed" }
      "g1" 1, (createPromise_spec initState
        { address := "0xab", message := "m", status := some "completed" } "g1" 1).1⟩
  · decide

/-- C6 amended: a successful `createPromise` appends one record whose
`status` is exactly the caller-supplied status field (so `active` only
when the caller sends it), increments the owner's `totalPromises` by
exactly one, and lazily creates an absent owner with zero-valued stats
(`totalPromises` already incremented to 1). -/
theorem createPromise_effects_amended (s : StorageState) (pd : PromiseData) (genId : String)
    (now : Nat) :
    (createPromise s pd genId now).1 = Except.ok (mkNewPromise pd genId now) ∧
    (createPromise s pd genId now).2.promises = s.promises ++ [mkNewPromise pd genId now] ∧
    (mkNewPromise pd genId now).status = pd.status ∧
    (getUser s pd.address = none →
      objGet (createPromise s pd genId now).2.users (jsLower pd.address) =
        some { address := pd.address, reputation := 0, completedPromises := 0,
               failedPromises := 0, totalPromises := 1, streak := 0, level := 1,
               joinedAt := now, lastActive := now }) ∧
    (∀ u, getUser s pd.address = some u →
      ∃ u', objGet (createPromise s pd genId now).2.users (jsLower pd.address) = some u' ∧
        u'.totalPromises = u.totalPromises + 1) := by
  obtain ⟨h1, h2, -, -, h5, h6⟩ := createPromise_spec s pd genId now
  exact ⟨h1, h2, rfl, h5, fun u hu => ⟨_, h6 u hu, rfl⟩⟩

/-- C6 witness: creating `demoData`'s promise on the empty store lazily
creates the owner with zero stats and `totalPromises = 1`, and the
appended record carries the caller's `active` status. -/
theorem createPromise_effects_amended_app :
    objGet (createPromise initState demoData "g1" 1).2.users "0xab" =
      some { address := "0xAb", reputation := 0, completedPromises := 0,
             failedPromises := 0, totalPromises := 1, streak := 0, level := 1,
             joinedAt := 1, lastActive := 1 } ∧
    (mkNewPromise demoData "g1" 1).status = some "active" := by
  obtain ⟨-, -, hst, h5, -⟩ := createPromise_effects_amended initState demoData "g1" 1
  exact ⟨h5 (by rfl), hst⟩

/-- C7 counterexample: `createPromise` with empty address and empty
message succeeds and persists the record — no ValidationError exists in
the code. -/
theorem createPromise_accepts_empty_input :
    (createPromise initState { address := "", message := "" } "g1" 1).1 =
      Except.ok (mkNewPromise { address := "", message := "" } "g1" 1) ∧
    (createPromise initState { address := "", message := "" } "g1" 1).2.promises.length = 1 := by
  constructor
  · exact (createPromise_spec initState { address := "", message := "" } "g1" 1).1
  · decide

/-- C7 amended: `createPromise` performs no input validation — even with
empty address and message it succeeds, appending the promise (and keying
the lazily created owner under the empty string). -/
theorem createPromise_no_validation_amended (s : StorageState) (pd : PromiseData)
    (genId : String) (now : Nat) (_ha : pd.address = "") (_hm : pd.message = "") :
    (createPromise s pd genId now).1 = Except.ok (mkNewPromise pd genId now) ∧
    (createPromise s pd genId now).2.promises = s.promises ++ [mkNewPromise pd genId now] := by
  obtain ⟨h1, h2, -⟩ := createPromise_spec s pd genId now
  exact ⟨h1, h2⟩

/-- C7 witness: the no-validation behaviour evaluated on the empty-input
call from the counterexample state. -/
theorem createPromise_no_validation_amended_app :
    (createPromise initState { address := "", message := "" } "g7" 2).1 =
      Except.ok (mkNewPromise { address := "", message := "" } "g7" 2) ∧
    (createPromise initState { address := "", message := "" } "g7" 2).2.promises =
      [mkNewPromise { address := "", message := "" } "g7" 2] := by
  obtain ⟨h1, h2⟩ := createPromise_no_validation_amended initState
    { address := "", message := "" } "g7" 2 rfl rfl
  exact ⟨h1, by simpa using h2⟩

/-- C10: the `...promiseData` spread comes after the generated fields, so
caller-supplied `id`, `createdAt`, `updatedAt` and `status` are kept
verbatim, the generated id is used only when the caller omits `id`, and
two calls with the same caller-chosen id leave two coexisting promises
with that id. -/
theorem promiseData_merge_overrides (s : StorageState) (pd : PromiseData)
    (genId genId₂ : String) (now now₂ : Nat) :
    (createPromise s pd genId now).2.promises = s.promises ++ [mkNewPromise pd genId now] ∧
    (∀ cid, pd.id = some cid → (mkNewPromise pd genId now).id = cid) ∧
    (pd.id = none → (mkNewPromise pd genId now).id = genId) ∧
    (∀ c, pd.createdAt = some c → (mkNewPromise pd genId now).createdAt = c) ∧
    (∀ t, pd.updatedAt = some t → (mkNewPromise pd genId now).updatedAt = t) ∧
    (mkNewPromise pd genId now).status = pd.status ∧
    (∀ cid, pd.id = some cid →
      ((createPromise ((createPromise s pd genId now).2) pd genId₂ now₂).2.promises.filter
          (fun p => p.id == cid)).length =
        (s.promises.filter (fun p => p.id == cid)).length + 2) := by
  obtain ⟨-, h2, -⟩ := createPromise_spec s pd genId now
  obtain ⟨-, h2', -⟩ := createPromise_spec ((createPromise s pd genId now).2) pd genId₂ now₂
  refine ⟨h2, ?_, ?_, ?_, ?_, rfl, ?_⟩
  · intro cid hc
    simp [mkNewPromise, hc]
  · intro hc
    simp [mkNewPromise, hc]
  · intro c hc
    simp [mkNewPromise, hc]
  · intro t ht
    simp [mkNewPromise, ht]
  · intro cid hc
    rw [h2', h2]
    have hid : (mkNewPromise pd genId now).id = cid := by simp [mkNewPromise, hc]
    have hid₂ : (mkNewPromise pd genId₂ now₂).id = cid := by simp [mkNewPromise, hc]
    simp [List.filter_append, hid, hid₂]

/-- C10 witness: two `createPromise` calls with the same caller-chosen id
`"dup"` on the empty store leave two promises with that id. -/
theorem promiseData_merge_overrides_app :
    (mkNewPromise dupIdData "g1" 1).id = "dup" ∧
    ((createPromise ((createPromise initState dupIdData "g1" 1).2)
      dupIdData "g2" 2).2.promises.filter (fun p => p.id == "dup")).length = 2 := by
  obtain ⟨-, hid, -, -, -, -, hdup⟩ :=
    promiseData_merge_overrides initState dupIdData "g1" "g2" 1 2
  exact ⟨hid "dup" rfl, by simpa using hdup "dup" rfl⟩

/-- C8 counterexample: applying the `completed` outcome to `sampleUser`
(at time 9) changes the user's `lastActive` field, which the claim lists
as unchanged. -/
theorem reputation_touches_lastActive :
    (getUser (updateUserReputation sampleState "0xAb" "completed" 9) "0xAb").map
        User.lastActive ≠
      (getUser sampleState "0xAb").map User.lastActive := by
  decide

/-- C8 amended: the reputation application touches only the stored user's
reputation, completed/failed counters, streak, level — and `lastActive`,
which is stamped with the current time; address, `totalPromises` and
`joinedAt` are unchanged, no other user entry changes, and no other
collection is modified. -/
theorem reputation_frame_amended (s : StorageState) (addr st : String) (now : Nat) (u : User)
    (h : getUser s addr = some u) :
    (updateUserReputation s addr st now).promises = s.promises ∧
    (updateUserReputation s addr st now).deleteRequests = s.deleteRequests ∧
    (updateUserReputation s addr st now).sessions = s.sessions ∧
    (updateUserReputation s addr st now).stats = s.stats ∧
    (∀ k, k ≠ jsLower addr →
      objGet (updateUserReputation s addr st now).users k = objGet s.users k) ∧
    (∃ u', objGet (updateUserReputation s addr st now).users (jsLower addr) = some u' ∧
      u'.address = u.address ∧ u'.totalPromises = u.totalPromises ∧
      u'.joinedAt = u.joinedAt ∧ u'.lastActive = now) := by
  rw [updateUserReputation_found s addr st now u h]
  refine ⟨rfl, rfl, rfl, rfl, fun k hk => objGet_objSet_ne _ _ _ _ hk, ?_⟩
  refine ⟨_, objGet_objSet_self _ _ _, rfl, ?_, rfl, rfl⟩
  show (reputationUpdates u st).totalPromises.getD u.totalPromises = u.totalPromises
  simp only [reputationUpdates]
  split_ifs <;> rfl

/-- C8 witness: the frame conditions evaluated on `sampleState` — the
promise list survives the reputation application and the stored user
keeps `totalPromises = 3` while `lastActive` becomes 9. -/
theorem reputation_frame_amended_app :
    (updateUserReputation sampleState "0xAb" "completed" 9).promises = [samplePromise] ∧
    (∃ u', objGet (updateUserReputation sampleState "0xAb" "completed" 9).users
      (jsLower "0xAb") = some u' ∧ u'.totalPromises = sampleUser.totalPromises ∧
      u'.lastActive = 9) := by
  obtain ⟨hp, -, -, -, -, ⟨u', hg, -, htp, -, hl⟩⟩ :=
    reputation_frame_amended sampleState "0xAb" "completed" 9 sampleUser (by rfl)
  exact ⟨by rw [hp]; rfl, ⟨u', hg, htp, hl⟩⟩

/-- C9 counterexample: a store holding exactly one user whose reputation
is 0 recomputes `topPerformer = none` even though a user exists. -/
theorem topPerformer_none_with_zero_rep_user :
    (computeGlobalStats [("0xcc", zeroRepUser)] [] [] 3).topPerformer = none ∧
    ([("0xcc", zeroRepUser)] : List (String × User)) ≠ [] := by
  constructor
  · rfl
  · decide

/-- C9 amended: for users with non-empty addresses, the recomputed
`topPerformer` is `none` exactly when every stored user has reputation
≤ 0; otherwise it is the address of the first-encountered user of
maximal reputation (that maximum being positive, earlier user winning
ties). -/
theorem topPerformer_first_max_positive (users : List (String × User))
    (promises : List PromiseRec) (sessions : List (String × Session)) (now : Nat)
    (haddr : ∀ kv ∈ users, kv.2.address ≠ "") :
    ((computeGlobalStats users promises sessions now).topPerformer = none ↔
      ∀ kv ∈ users, kv.2.reputation ≤ 0) ∧
    (∀ a, (computeGlobalStats users promises sessions now).topPerformer = some a →
      ∃ i, ∃ hi : i < (users.map Prod.snd).length,
        ((users.map Prod.snd).get ⟨i, hi⟩).address = a ∧
        0 < ((users.map Prod.snd).get ⟨i, hi⟩).reputation ∧
        (∀ v ∈ users.map Prod.snd,
          v.reputation ≤ ((users.map Prod.snd).get ⟨i, hi⟩).reputation) ∧
        (∀ j, ∀ hj : j < (users.map Prod.snd).length, j < i →
          ((users.map Prod.snd).get ⟨j, hj⟩).reputation <
            ((users.map Prod.snd).get ⟨i, hi⟩).reputation)) := by
  have key : (computeGlobalStats users promises sessions now).topPerformer =
      match firstMaxPos (users.map Prod.snd) with
      | none => none
      | some u => if u.address = "" then none else some u.address := by
    show (match topReduce (users.map Prod.snd) with
      | none => none
      | some u => if u.address = "" then none else some u.address) = _
    rw [topReduce_eq_firstMaxPos]
  constructor
  · rw [key]
    cases hfm : firstMaxPos (users.map Prod.snd) with
    | none =>
      simp only
      constructor
      · intro _ kv hkv
        exact (firstMaxPos_none_iff _).1 hfm kv.2 (List.mem_map.2 ⟨kv, hkv, rfl⟩)
      · intro _
        trivial
    | some w =>
      have hw := firstMaxPos_pos hfm
      obtain ⟨kv, hkv, hkv2⟩ := List.mem_map.1 (firstMaxPos_mem hfm)
      have haw : w.address ≠ "" := by
        rw [← hkv2]
        exact haddr kv hkv
      simp only [if_neg haw]
      constructor
      · intro hcon
        cases hcon
      · intro hall
        exfalso
        have := hall kv hkv
        rw [hkv2] at this
        omega
  · intro a ha
    rw [key] at ha
    cases hfm : firstMaxPos (users.map Prod.snd) with
    | none =>
      rw [hfm] at ha
      cases ha
    | some w =>
      rw [hfm] at ha
      have hw := firstMaxPos_pos hfm
      obtain ⟨kv, hkv, hkv2⟩ := List.mem_map.1 (firstMaxPos_mem hfm)
      have haw : w.address ≠ "" := by
        rw [← hkv2]
        exact haddr kv hkv
      simp only [if_neg haw] at ha
      obtain rfl : w.address = a := by injection ha
      obtain ⟨i, hi, hget, hprior⟩ := firstMaxPos_first hfm
      refine ⟨i, hi, by rw [hget], by rw [hget]; exact hw, ?_, ?_⟩
      · rw [hget]
        exact firstMaxPos_max hfm
      · intro j hj hj2
        rw [hget]
        exact hprior j hj hj2

/-- C9 witness: with `sampleUser` (reputation 20) and `zeroRepUser`
(reputation 0) stored, the recomputed `topPerformer` is not `none`. -/
theorem topPerformer_first_max_positive_app :
    ((computeGlobalStats [("0xab", sampleUser), ("0xcc", zeroRepUser)] [] [] 3).topPerformer =
        none ↔
      ∀ kv ∈ ([("0xab", sampleUser), ("0xcc", zeroRepUser)] : List (String × User)),
        kv.2.reputation ≤ 0) := by
  exact (topPerformer_first_max_positive [("0xab", sampleUser), ("0xcc", zeroRepUser)]
    [] [] 3 (by decide)).1
